import Mathlib

/-!
Shallow embedding of the ExpenseTracker Flask application (`src/app.py`):
the transaction data model, the `add_transaction` write path, the
dashboard/transactions totals, the paginated transaction listing, and the
analytics aggregations (category breakdown and monthly trend), together
with theorems checking the specification's claims against them.

Amounts are modelled as rationals (the source stores Python floats and
sums them in SQLite); dates as year/month/day records; the database as an
explicit list of rows in insertion (rowid) order with an auto-increment
counter.
-/

namespace ExpenseTracker

/-- A calendar date, as produced by `datetime.strptime(date_str, '%Y-%m-%d').date()`. -/
structure Date where
  year : Nat
  month : Nat
  day : Nat
deriving DecidableEq, Repr

/-- One row of the `Transaction` table (src/app.py lines 80-93).
`createdAt` abstracts the `created_at` DateTime as a numeric timestamp. -/
structure Transaction where
  id : Nat
  type : String
  amount : ℚ
  category : String
  description : Option String
  date : Date
  createdAt : Nat
  user_id : Nat
deriving DecidableEq, Repr

/-- One row of the `User` table (src/app.py lines 65-78), the fields the
claims need. -/
structure User where
  id : Nat
  username : String
  email : String
deriving DecidableEq, Repr

/-- The transaction table plus the auto-increment primary-key counter.
Rows are kept in insertion (rowid) order. -/
structure Store where
  transactions : List Transaction
  nextId : Nat
deriving DecidableEq, Repr

/-- `INCOME_CATEGORIES` (src/app.py lines 96-103). -/
def INCOME_CATEGORIES : List (String × String) :=
  [("salary", "Salary"), ("freelance", "Freelance"), ("investment", "Investment"),
   ("business", "Business"), ("gift", "Gift"), ("other_income", "Other Income")]

/-- `EXPENSE_CATEGORIES` (src/app.py lines 105-116). -/
def EXPENSE_CATEGORIES : List (String × String) :=
  [("food", "Food & Dining"), ("transportation", "Transportation"),
   ("shopping", "Shopping"), ("entertainment", "Entertainment"),
   ("bills", "Bills & Utilities"), ("healthcare", "Healthcare"),
   ("education", "Education"), ("travel", "Travel"),
   ("housing", "Housing"), ("other_expense", "Other Expense")]

/-- The Category Catalog membership test of the spec
(`CategoryCatalog.isValid(kind, code)`): a code is valid when it appears in
the catalog list for the given kind; an unrecognized kind has an empty
catalog. Stated from the spec so that the write path can be compared
against it — the source's `add_transaction` never consults these lists. -/
def isValidCategory (kind code : String) : Bool :=
  (if kind == "income" then INCOME_CATEGORIES
   else if kind == "expense" then EXPENSE_CATEGORIES
   else []).any (fun p => p.1 == code)

/-- Python truthiness of an optional form field: `request.form.get(k)` is
falsy when the field is absent or the empty string. -/
def fieldPresent (o : Option String) : Bool :=
  match o with
  | none => false
  | some s => !s.isEmpty

/-- Split a character list at every occurrence of `sep` (the model of
splitting a string on a one-character separator). -/
def splitChar (sep : Char) : List Char → List (List Char)
  | [] => [[]]
  | c :: cs =>
    let r := splitChar sep cs
    if c == sep then [] :: r
    else
      match r with
      | [] => [[c]]
      | g :: gs => (c :: g) :: gs

/-- The numeric value of a decimal digit character, `none` otherwise. -/
def digitVal (c : Char) : Option Nat :=
  if 48 ≤ c.toNat && c.toNat ≤ 57 then some (c.toNat - 48) else none

/-- Parse a nonempty all-digit character list as a natural number. -/
def digitsToNat : List Char → Option Nat
  | [] => none
  | cs => cs.foldl (fun acc c => do
      let a ← acc
      let d ← digitVal c
      pure (a * 10 + d)) (some 0)

/-- Model of Python `float(s)` restricted to plain decimal literals with an
optional sign: `[+|-] digits [. digits]`, also accepting `1.` and `.5`. -/
def parseUnsigned (cs : List Char) : Option ℚ :=
  match splitChar '.' cs with
  | [i] => (digitsToNat i).map (fun n => (n : ℚ))
  | [i, f] =>
    if i.isEmpty && f.isEmpty then none
    else
      match (if i.isEmpty then some 0 else digitsToNat i),
            (if f.isEmpty then some 0 else digitsToNat f) with
      | some iv, some fv => some ((iv : ℚ) + (fv : ℚ) / (10 : ℚ) ^ f.length)
      | _, _ => none
  | _ => none

/-- Model of Python `float(s)` for the amount field. -/
def parseDecimal (s : String) : Option ℚ :=
  match s.toList with
  | '-' :: rest => (parseUnsigned rest).map (fun q => -q)
  | '+' :: rest => parseUnsigned rest
  | cs => parseUnsigned cs

def isLeap (y : Nat) : Bool :=
  (y % 4 == 0 && y % 100 != 0) || y % 400 == 0

def daysInMonth (y m : Nat) : Nat :=
  if m == 2 then (if isLeap y then 29 else 28)
  else if m == 4 || m == 6 || m == 9 || m == 11 then 30
  else 31

/-- Model of `datetime.strptime(date_str, '%Y-%m-%d').date()`: three
dash-separated digit groups forming a valid calendar date. -/
def parseDate (s : String) : Option Date :=
  match splitChar '-' s.toList with
  | [ys, ms, ds] =>
    match digitsToNat ys, digitsToNat ms, digitsToNat ds with
    | some y, some m, some d =>
      if 1 ≤ m && m ≤ 12 && 1 ≤ d && d ≤ daysInMonth y m then some ⟨y, m, d⟩
      else none
    | _, _, _ => none
  | _ => none

/-- The validation failures the `add_transaction` POST handler can return
before any write (src/app.py lines 402-418), each an HTML error page in the
source. -/
inductive VErr where
  | missingFields
  | invalidDate
  | invalidAmount
  | nonPositiveAmount
deriving DecidableEq, Repr

/-- The form body of a POST to `/add_transaction`: `request.form.get` of
each field, `none` when absent. -/
structure AddRequest where
  type : Option String
  amount : Option String
  category : Option String
  description : Option String
  date : Option String
deriving DecidableEq, Repr

/-- The POST branch of `add_transaction` (src/app.py lines 394-433):
presence check via Python `all`, date parse, amount parse, positivity
check, then the insert. `uid` is `current_user.id`; `now` the
store-assigned `created_at`. On success returns the new store and the
created row; on failure the store is unchanged (the source returns an
error page before `db.session.add`). -/
def add_transaction (st : Store) (uid now : Nat) (req : AddRequest) :
    Except VErr (Store × Transaction) :=
  if !(fieldPresent req.type && fieldPresent req.amount &&
       fieldPresent req.category && fieldPresent req.date) then
    .error .missingFields
  else
    match parseDate (req.date.getD "") with
    | none => .error .invalidDate
    | some d =>
      match parseDecimal (req.amount.getD "") with
      | none => .error .invalidAmount
      | some a =>
        if a ≤ 0 then .error .nonPositiveAmount
        else
          let t : Transaction :=
            { id := st.nextId, type := req.type.getD "", amount := a,
              category := req.category.getD "", description := req.description,
              date := d, createdAt := now, user_id := uid }
          .ok ({ transactions := st.transactions ++ [t], nextId := st.nextId + 1 }, t)

/-- `db.session.query(func.sum(Transaction.amount)).filter_by(user_id=uid, type=k).scalar() or 0`
(src/app.py lines 361-362 and 606-607): the sum of amounts over the owner's
rows of the given kind, `0` when there are none. -/
def sumByOwnerKind (l : List Transaction) (uid : Nat) (k : String) : ℚ :=
  ((l.filter (fun t => t.user_id == uid && t.type == k)).map (fun t => t.amount)).sum

/-- The `{income, expense, net}` triple of the dashboard and transactions
routes. -/
structure Balance where
  income : ℚ
  expense : ℚ
  net : ℚ
deriving DecidableEq, Repr

/-- Totals of src/app.py lines 361-363 / 606-608: `balance = total_income - total_expense`. -/
def balanceOf (l : List Transaction) (uid : Nat) : Balance :=
  { income := sumByOwnerKind l uid "income",
    expense := sumByOwnerKind l uid "expense",
    net := sumByOwnerKind l uid "income" - sumByOwnerKind l uid "expense" }

/-- The `ORDER BY created_at DESC` sort key of the transactions and
dashboard queries: `a` may come before `b` when `b`'s creation timestamp is
no later than `a`'s. The query names no secondary key, so the model uses a
stable sort over the table's rowid (insertion) order. -/
def descCreated (a b : Transaction) : Prop :=
  b.createdAt ≤ a.createdAt

instance : DecidableRel descCreated :=
  fun a b => Nat.decLe b.createdAt a.createdAt

instance : IsTotal Transaction descCreated :=
  ⟨fun a b => Nat.le_total b.createdAt a.createdAt⟩

instance : IsTrans Transaction descCreated :=
  ⟨fun _ _ _ h1 h2 => Nat.le_trans h2 h1⟩

/-- `Transaction.query.filter_by(user_id=uid).order_by(Transaction.created_at.desc())`
(src/app.py line 602). -/
def ownerSorted (l : List Transaction) (uid : Nat) : List Transaction :=
  List.insertionSort descCreated (l.filter (fun t => t.user_id == uid))

/-- `.paginate(page=page, per_page=20, error_out=False).items`
(src/app.py lines 602-603): the 1-indexed page of 20 from the ordered
owner query; a page past the end is empty. -/
def listByOwner (l : List Transaction) (uid page : Nat) : List Transaction :=
  ((ownerSorted l uid).drop ((page - 1) * 20)).take 20

/-- The backing store being unreachable or failing to initialize. -/
inductive StorageErr where
  | unavailable
deriving DecidableEq, Repr

/-- What the dashboard route passes to its template (src/app.py lines 365-369). -/
structure DashboardView where
  transactions : List Transaction
  total_income : ℚ
  total_expense : ℚ
  balance : ℚ
deriving DecidableEq, Repr

/-- The `dashboard` route (src/app.py lines 349-377): on a readable store
it renders the ten most recent transactions and the totals; when the store
read fails, the `except` branch renders the same template with an empty
list and zero totals instead of propagating the failure. -/
def dashboard (res : Except StorageErr (List Transaction)) (uid : Nat) :
    Except StorageErr DashboardView :=
  match res with
  | .ok l =>
    .ok { transactions := (ownerSorted l uid).take 10,
          total_income := sumByOwnerKind l uid "income",
          total_expense := sumByOwnerKind l uid "expense",
          balance := sumByOwnerKind l uid "income" - sumByOwnerKind l uid "expense" }
  | .error _ =>
    .ok { transactions := [], total_income := 0, total_expense := 0, balance := 0 }

/-- Zero-pad a month number to two digits, as `strftime('%m')` does. -/
def pad2 (n : Nat) : String :=
  if n < 10 then "0" ++ toString n else toString n

/-- Zero-pad a year to four digits, as `strftime('%Y')` does. -/
def pad4 (n : Nat) : String :=
  if n < 10 then "000" ++ toString n
  else if n < 100 then "00" ++ toString n
  else if n < 1000 then "0" ++ toString n
  else toString n

/-- `strftime('%Y-%m', Transaction.date)` (src/app.py line 756). -/
def monthKey (d : Date) : String :=
  pad4 d.year ++ "-" ++ pad2 d.month

/-- The per-group sum of the monthly-trend query for one
`(month, type)` group key over the owner's rows. -/
def trendSum (owned : List Transaction) (key : String × String) : ℚ :=
  ((owned.filter (fun t => monthKey t.date == key.1 && t.type == key.2)).map
    (fun t => t.amount)).sum

/-- The monthly-trend query (src/app.py lines 755-759): group the owner's
rows by `(strftime('%Y-%m', date), type)`, sum `amount` per group, order by
the month string ascending (the query's only `order_by`; group keys are
kept in a deterministic stable order). -/
def monthlyTrend (l : List Transaction) (uid : Nat) : List (String × String × ℚ) :=
  let owned := l.filter (fun t => t.user_id == uid)
  let keys := (owned.map (fun t => (monthKey t.date, t.type))).dedup
  (List.insertionSort (fun a b : String × String => a.1 ≤ b.1) keys).map
    (fun key => (key.1, key.2, trendSum owned key))

/-- The per-category sum of the category-breakdown query for one category
over the owner's rows of one kind. -/
def catSum (ownedK : List Transaction) (c : String) : ℚ :=
  ((ownedK.filter (fun t => t.category == c)).map (fun t => t.amount)).sum

/-- The category-breakdown queries of the analytics route (src/app.py
lines 743-752): the owner's rows of the given kind grouped by category
with `amount` summed per group (`GROUP BY` emits each distinct category
once, in category order). -/
def categoryBreakdown (l : List Transaction) (uid : Nat) (k : String) :
    List (String × ℚ) :=
  let ownedK := l.filter (fun t => t.user_id == uid && t.type == k)
  let cats := (ownedK.map (fun t => t.category)).dedup
  (List.insertionSort (fun a b : String => a ≤ b) cats).map
    (fun c => (c, catSum ownedK c))

/-- The failure of a delete aimed at a missing or foreign-owned row. -/
inductive NotFoundError where
  | notFound
deriving DecidableEq, Repr

/-- Modelled from the spec: the repository's src has no delete route (only
the spec's §4.2 `deleteOwned` contract describes it). A delete removes the
row only when a row with that id exists and is owned by the caller;
otherwise — id absent, or present but owned by another account — it fails
with the one indistinguishable `NotFoundError`. -/
def deleteOwned (l : List Transaction) (uid txid : Nat) :
    Except NotFoundError (List Transaction) :=
  if l.any (fun t => t.id == txid && t.user_id == uid) then
    .ok (l.filter (fun t => !(t.id == txid && t.user_id == uid)))
  else
    .error .notFound

/-- Deleting a `User` row through the ORM: the relationship
`db.relationship('Transaction', backref='user', lazy=True, cascade='all, delete-orphan')`
(src/app.py line 75) makes the session delete every owned `Transaction`
with the `User`. -/
def delete_user (users : List User) (txns : List Transaction) (uid : Nat) :
    List User × List Transaction :=
  (users.filter (fun u => !(u.id == uid)),
   txns.filter (fun t => !(t.user_id == uid)))

end ExpenseTracker

deriving instance DecidableEq for Except

namespace ExpenseTracker

/-! Helper lemmas about summing over group keys, shared by the
aggregation theorems. -/

lemma sum_map_zero {κ : Type} (ks : List κ) :
    (ks.map (fun _ => (0 : ℚ))).sum = 0 := by
  induction ks with
  | nil => rfl
  | cons k ks ih => simp [ih]

lemma sum_map_ite {κ : Type} [DecidableEq κ] (a : κ) (c : ℚ) (f : κ → ℚ) :
    ∀ ks : List κ, ks.Nodup → a ∈ ks →
      (ks.map (fun k => if a = k then c + f k else f k)).sum = c + (ks.map f).sum := by
  intro ks
  induction ks with
  | nil => intro _ ha; cases ha
  | cons k ks ih =>
    intro hnd ha
    rcases List.mem_cons.mp ha with rfl | hmem
    · have hnot : a ∉ ks := (List.nodup_cons.mp hnd).1
      have hrest : ks.map (fun x => if a = x then c + f x else f x) = ks.map f :=
        List.map_congr_left (fun x hx => if_neg (by rintro rfl; exact hnot hx))
      simp [hrest, add_assoc]
    · have hne : a ≠ k := fun he => (List.nodup_cons.mp hnd).1 (he ▸ hmem)
      have hih := ih (List.nodup_cons.mp hnd).2 hmem
      simp only [List.map_cons, List.sum_cons, if_neg hne, hih]
      ring

lemma sum_over_groups {α κ : Type} [BEq κ] [LawfulBEq κ] [DecidableEq κ]
    (key : α → κ) (amt : α → ℚ) :
    ∀ (l : List α) (ks : List κ), ks.Nodup → (∀ x ∈ l, key x ∈ ks) →
      (ks.map (fun k => ((l.filter (fun x => key x == k)).map amt).sum)).sum
        = (l.map amt).sum := by
  intro l
  induction l with
  | nil => intro ks _ _; simp [sum_map_zero]
  | cons x l ih =>
    intro ks hnd hcov
    have hx : key x ∈ ks := hcov x (List.mem_cons_self x l)
    have hstep :
        ks.map (fun k => (((x :: l).filter (fun y => key y == k)).map amt).sum)
          = ks.map (fun k =>
              if key x = k then amt x + ((l.filter (fun y => key y == k)).map amt).sum
              else ((l.filter (fun y => key y == k)).map amt).sum) := by
      apply List.map_congr_left
      intro k _
      by_cases he : key x = k
      · simp [List.filter_cons, he]
      · simp [List.filter_cons, he]
    rw [hstep, sum_map_ite (key x) (amt x) _ ks hnd hx,
        ih ks hnd (fun y hy => hcov y (List.mem_cons_of_mem x hy))]
    simp

lemma filter_map_pred {α β : Type} (f : α → β) (p : β → Bool) :
    ∀ l : List α, (l.map f).filter p = (l.filter (fun a => p (f a))).map f := by
  intro l
  induction l with
  | nil => rfl
  | cons x l ih => by_cases h : p (f x) <;> simp [List.filter_cons, h, ih]

/-! The claims. -/

/-- C1 (counterexample): the claim says an append whose category is not in
the catalog for its kind fails with a `ValidationError` and persists
nothing; but `add_transaction` accepts `category='salary'` (an income-only
code) with `kind='expense'` and persists the row. -/
theorem c1_counterexample :
    isValidCategory "expense" "salary" = false ∧
    add_transaction ⟨[], 1⟩ 7 100
        ⟨some "expense", some "50", some "salary", none, some "2024-01-15"⟩ =
      .ok (⟨[⟨1, "expense", 50, "salary", none, ⟨2024, 1, 15⟩, 100, 7⟩], 2⟩,
           ⟨1, "expense", 50, "salary", none, ⟨2024, 1, 15⟩, 100, 7⟩) := by
  exact ⟨by decide, by decide⟩

/-- C1 (amended): `add_transaction` performs no category-catalog check:
whenever the presence, date and amount validations pass, the append
succeeds and persists the supplied category verbatim, even when
`CategoryCatalog.isValid` rejects it for the given kind. -/
theorem c1_no_category_validation (st : Store) (uid now : Nat) (req : AddRequest)
    (a : ℚ) (d : Date)
    (hty : fieldPresent req.type = true) (ham : fieldPresent req.amount = true)
    (hct : fieldPresent req.category = true) (hdt : fieldPresent req.date = true)
    (hd : parseDate (req.date.getD "") = some d)
    (ha : parseDecimal (req.amount.getD "") = some a)
    (hpos : 0 < a)
    (_hbad : isValidCategory (req.type.getD "") (req.category.getD "") = false) :
    add_transaction st uid now req =
      .ok ({ transactions := st.transactions ++
               [{ id := st.nextId, type := req.type.getD "", amount := a,
                  category := req.category.getD "", description := req.description,
                  date := d, createdAt := now, user_id := uid }],
             nextId := st.nextId + 1 },
           { id := st.nextId, type := req.type.getD "", amount := a,
             category := req.category.getD "", description := req.description,
             date := d, createdAt := now, user_id := uid }) := by
  unfold add_transaction
  rw [hty, ham, hct, hdt, hd, ha]
  simp [not_le.mpr hpos]

/-- C1 (witness): the amended theorem applied to a concrete
income-category-on-expense request. -/
theorem c1_witness :
    add_transaction ⟨[], 1⟩ 7 100
        ⟨some "expense", some "50", some "salary", none, some "2024-01-15"⟩ =
      .ok (⟨[⟨1, "expense", 50, "salary", none, ⟨2024, 1, 15⟩, 100, 7⟩], 2⟩,
           ⟨1, "expense", 50, "salary", none, ⟨2024, 1, 15⟩, 100, 7⟩) :=
  c1_no_category_validation ⟨[], 1⟩ 7 100
    ⟨some "expense", some "50", some "salary", none, some "2024-01-15"⟩ 50 ⟨2024, 1, 15⟩
    (by decide) (by decide) (by decide) (by decide) (by decide) (by decide)
    (by decide) (by decide)

/-- C2: an append whose amount parses to a non-positive value fails with a
validation error whatever the kind, category and date fields hold, and an
append whose amount parses to a positive value is never rejected on the
amount field. -/
theorem c2_amount_validation (st : Store) (uid now : Nat) (req : AddRequest) (a : ℚ)
    (ha : parseDecimal (req.amount.getD "") = some a) :
    (a ≤ 0 → ∃ e, add_transaction st uid now req = Except.error e) ∧
    (0 < a → add_transaction st uid now req ≠ Except.error VErr.invalidAmount ∧
             add_transaction st uid now req ≠ Except.error VErr.nonPositiveAmount) := by
  constructor
  · intro hle
    cases hX : (fieldPresent req.type && fieldPresent req.amount &&
                fieldPresent req.category && fieldPresent req.date) with
    | false => exact ⟨VErr.missingFields, by simp [add_transaction, hX]⟩
    | true =>
      cases hdm : parseDate (req.date.getD "") with
      | none => exact ⟨VErr.invalidDate, by simp [add_transaction, hX, hdm]⟩
      | some d =>
        exact ⟨VErr.nonPositiveAmount, by simp [add_transaction, hX, hdm, ha, hle]⟩
  · intro hpos
    cases hX : (fieldPresent req.type && fieldPresent req.amount &&
                fieldPresent req.category && fieldPresent req.date) with
    | false => constructor <;> simp [add_transaction, hX]
    | true =>
      cases hdm : parseDate (req.date.getD "") with
      | none => constructor <;> simp [add_transaction, hX, hdm]
      | some d => constructor <;> simp [add_transaction, hX, hdm, ha, not_le.mpr hpos]

/-- C2 (witness): a concrete negative-amount append fails, and a concrete
positive-amount append is not rejected on the amount field. -/
theorem c2_witness :
    (∃ e, add_transaction ⟨[], 1⟩ 1 0
        ⟨some "expense", some "-5", some "food", none, some "2024-01-15"⟩ =
          Except.error e) ∧
    (add_transaction ⟨[], 1⟩ 1 0
        ⟨some "expense", some "5", some "food", none, some "2024-01-15"⟩ ≠
          Except.error VErr.invalidAmount ∧
     add_transaction ⟨[], 1⟩ 1 0
        ⟨some "expense", some "5", some "food", none, some "2024-01-15"⟩ ≠
          Except.error VErr.nonPositiveAmount) :=
  ⟨(c2_amount_validation ⟨[], 1⟩ 1 0
      ⟨some "expense", some "-5", some "food", none, some "2024-01-15"⟩ (-5)
      (by decide)).1 (by decide),
   (c2_amount_validation ⟨[], 1⟩ 1 0
      ⟨some "expense", some "5", some "food", none, some "2024-01-15"⟩ 5
      (by decide)).2 (by decide)⟩

/-- C3 (code bug): the claim — matched by the source's own column comment
"'income' or 'expense'" — says any other kind string is rejected at write
time; but `add_transaction` never checks the type field, so the string
"bonus" is accepted and a row with a third kind state is persisted. -/
theorem c3_third_kind_accepted :
    ("bonus" ≠ "income" ∧ "bonus" ≠ "expense") ∧
    add_transaction ⟨[], 1⟩ 7 100
        ⟨some "bonus", some "10", some "salary", none, some "2024-01-15"⟩ =
      .ok (⟨[⟨1, "bonus", 10, "salary", none, ⟨2024, 1, 15⟩, 100, 7⟩], 2⟩,
           ⟨1, "bonus", 10, "salary", none, ⟨2024, 1, 15⟩, 100, 7⟩) := by
  exact ⟨⟨by decide, by decide⟩, by decide⟩

/-- C4: the dashboard/transactions totals give income and expense as the
sums of the owner's transactions of each kind, `0` when there are none,
`net = income - expense` possibly negative, and the result is invariant
under reordering the stored rows. -/
theorem c4_balance_spec (l l' : List Transaction) (uid : Nat) (h : l.Perm l') :
    balanceOf l uid = balanceOf l' uid ∧
    (balanceOf l uid).income =
      ((l.filter (fun t => t.user_id == uid && t.type == "income")).map
        (fun t => t.amount)).sum ∧
    (balanceOf l uid).expense =
      ((l.filter (fun t => t.user_id == uid && t.type == "expense")).map
        (fun t => t.amount)).sum ∧
    (balanceOf l uid).net = (balanceOf l uid).income - (balanceOf l uid).expense ∧
    (l.filter (fun t => t.user_id == uid && t.type == "income") = [] →
      (balanceOf l uid).income = 0) ∧
    (l.filter (fun t => t.user_id == uid && t.type == "expense") = [] →
      (balanceOf l uid).expense = 0) ∧
    ∃ l₀ : List Transaction, ∃ u₀ : Nat, (balanceOf l₀ u₀).net < 0 := by
  have hperm : ∀ k, sumByOwnerKind l uid k = sumByOwnerKind l' uid k := fun k =>
    List.Perm.sum_eq (List.Perm.map _ (List.Perm.filter _ h))
  refine ⟨by simp [balanceOf, hperm], rfl, rfl, rfl, ?_, ?_, ?_⟩
  · intro hfe; simp [balanceOf, sumByOwnerKind, hfe]
  · intro hfe; simp [balanceOf, sumByOwnerKind, hfe]
  · refine ⟨[⟨1, "expense", 5, "food", none, ⟨2024, 1, 1⟩, 0, 1⟩], 1, ?_⟩
    have hinc : ([(⟨1, "expense", 5, "food", none, ⟨2024, 1, 1⟩, 0, 1⟩ : Transaction)].filter
        (fun t => t.user_id == 1 && t.type == "income")) = [] := by decide
    have hexp : ([(⟨1, "expense", 5, "food", none, ⟨2024, 1, 1⟩, 0, 1⟩ : Transaction)].filter
        (fun t => t.user_id == 1 && t.type == "expense")) =
        [⟨1, "expense", 5, "food", none, ⟨2024, 1, 1⟩, 0, 1⟩] := by decide
    simp [balanceOf, sumByOwnerKind, hinc, hexp]

/-- C4 (witness): reordering two concrete transactions leaves the balance
triple unchanged. -/
theorem c4_witness :
    balanceOf [⟨1, "income", 1000, "salary", none, ⟨2024, 1, 15⟩, 0, 1⟩,
               ⟨2, "expense", 250, "food", none, ⟨2024, 1, 20⟩, 1, 1⟩] 1 =
    balanceOf [⟨2, "expense", 250, "food", none, ⟨2024, 1, 20⟩, 1, 1⟩,
               ⟨1, "income", 1000, "salary", none, ⟨2024, 1, 15⟩, 0, 1⟩] 1 :=
  (c4_balance_spec _ _ 1 (List.Perm.swap _ _ [])).1

/-- C5 (counterexample): two transactions of the same owner with equal
creation timestamps come back from the listing in ascending-identifier
order (the stable order of the model, which has no secondary sort key),
not in the descending-identifier order the claim asserts. -/
theorem c5_counterexample :
    (⟨1, "income", 5, "salary", none, ⟨2024, 1, 1⟩, 100, 1⟩ : Transaction).createdAt =
      (⟨2, "income", 7, "gift", none, ⟨2024, 1, 2⟩, 100, 1⟩ : Transaction).createdAt ∧
    (⟨1, "income", 5, "salary", none, ⟨2024, 1, 1⟩, 100, 1⟩ : Transaction).id <
      (⟨2, "income", 7, "gift", none, ⟨2024, 1, 2⟩, 100, 1⟩ : Transaction).id ∧
    listByOwner
        [⟨1, "income", 5, "salary", none, ⟨2024, 1, 1⟩, 100, 1⟩,
         ⟨2, "income", 7, "gift", none, ⟨2024, 1, 2⟩, 100, 1⟩] 1 1 =
      [⟨1, "income", 5, "salary", none, ⟨2024, 1, 1⟩, 100, 1⟩,
       ⟨2, "income", 7, "gift", none, ⟨2024, 1, 2⟩, 100, 1⟩] := by
  exact ⟨rfl, by decide, by decide⟩

/-- C5 (amended): the listing is the owner's transactions ordered
descending by creation timestamp (no identifier tie-break is applied by
the query), it is a permutation of exactly the owner's rows, and a page
holds at most 20 records. -/
theorem c5_order_and_pages (l : List Transaction) (uid page : Nat) :
    List.Sorted descCreated (ownerSorted l uid) ∧
    (ownerSorted l uid).Perm (l.filter (fun t => t.user_id == uid)) ∧
    (listByOwner l uid page).length ≤ 20 :=
  ⟨List.sorted_insertionSort descCreated _, List.perm_insertionSort descCreated _,
   List.length_take_le 20 _⟩

/-- C8: a delete aimed at an identifier that no row of the caller carries —
because the row does not exist, or exists under another owner — fails with
the one `NotFoundError`, indistinguishable from deleting against an empty
store, and returns no modified store. -/
theorem c8_deleteOwned_notFound (l : List Transaction) (uid txid : Nat)
    (h : ∀ t ∈ l, t.id = txid → t.user_id ≠ uid) :
    deleteOwned l uid txid = Except.error NotFoundError.notFound ∧
    deleteOwned l uid txid = deleteOwned [] uid txid := by
  have hany : l.any (fun t => t.id == txid && t.user_id == uid) = false := by
    cases hc : l.any (fun t => t.id == txid && t.user_id == uid) with
    | false => rfl
    | true =>
      exfalso
      obtain ⟨t, ht, hp⟩ := List.any_eq_true.mp hc
      simp only [Bool.and_eq_true, beq_iff_eq] at hp
      exact h t ht hp.1 hp.2
  constructor <;> simp [deleteOwned, hany]

/-- C8 (witness): deleting another account's transaction fails exactly as
deleting a nonexistent one. -/
theorem c8_witness :
    deleteOwned [⟨5, "income", 10, "salary", none, ⟨2024, 1, 1⟩, 0, 2⟩] 1 5 =
      Except.error NotFoundError.notFound ∧
    deleteOwned [⟨5, "income", 10, "salary", none, ⟨2024, 1, 1⟩, 0, 2⟩] 1 5 =
      deleteOwned [] 1 5 :=
  c8_deleteOwned_notFound [⟨5, "income", 10, "salary", none, ⟨2024, 1, 1⟩, 0, 2⟩] 1 5
    (by decide)

/-- C9 (counterexample): the claim says a failed store read is reported and
never masked by a fabricated zero result; but the dashboard route answers a
failed read with the zero/empty view, byte-identical to the view of an
empty reachable store. -/
theorem c9_counterexample :
    dashboard (Except.error StorageErr.unavailable) 1 = Except.ok ⟨[], 0, 0, 0⟩ ∧
    dashboard (Except.error StorageErr.unavailable) 1 = dashboard (Except.ok []) 1 := by
  constructor
  · rfl
  · simp [dashboard, ownerSorted, sumByOwnerKind, List.insertionSort]

/-- C9 (amended): when the store read fails, the dashboard catches the
failure and renders the default empty view with zero totals — reporting
success, indistinguishable from an empty-but-reachable store. -/
theorem c9_failure_masked (e : StorageErr) (uid : Nat) :
    dashboard (Except.error e) uid = Except.ok ⟨[], 0, 0, 0⟩ ∧
    dashboard (Except.error e) uid = dashboard (Except.ok []) uid := by
  constructor
  · rfl
  · simp [dashboard, ownerSorted, sumByOwnerKind, List.insertionSort]

/-- C10: deleting a user through the ORM relationship with its
delete-orphan cascade removes the user's transactions with it: afterwards
no stored transaction references the deleted owner, and other owners' rows
survive. -/
theorem c10_cascade_deletes_transactions (users : List User)
    (txns : List Transaction) (uid : Nat) :
    (∀ t ∈ (delete_user users txns uid).2, t.user_id ≠ uid) ∧
    (∀ u ∈ (delete_user users txns uid).1, u.id ≠ uid) ∧
    (∀ t ∈ txns, t.user_id ≠ uid → t ∈ (delete_user users txns uid).2) := by
  refine ⟨?_, ?_, ?_⟩
  · intro t ht
    simp only [delete_user, List.mem_filter, Bool.not_eq_true', beq_eq_false_iff_ne,
      ne_eq] at ht
    exact ht.2
  · intro u hu
    simp only [delete_user, List.mem_filter, Bool.not_eq_true', beq_eq_false_iff_ne,
      ne_eq] at hu
    exact hu.2
  · intro t ht hne
    simp only [delete_user, List.mem_filter, Bool.not_eq_true', beq_eq_false_iff_ne,
      ne_eq]
    exact ⟨ht, hne⟩

/-! Supporting lemmas for the analytics aggregations. -/

lemma trend_core (owned : List Transaction) (k : String) :
    (((List.insertionSort (fun a b : String × String => a.1 ≤ b.1)
        ((owned.map (fun t => (monthKey t.date, t.type))).dedup)).filter
          (fun key => key.2 == k)).map (fun key => trendSum owned key)).sum
      = ((owned.filter (fun t => t.type == k)).map (fun t => t.amount)).sum := by
  have hperm : ((List.insertionSort (fun a b : String × String => a.1 ≤ b.1)
        ((owned.map (fun t => (monthKey t.date, t.type))).dedup)).filter
          (fun key => key.2 == k)).Perm
      (((owned.map (fun t => (monthKey t.date, t.type))).dedup).filter
          (fun key => key.2 == k)) :=
    (List.perm_insertionSort _ _).filter _
  rw [List.Perm.sum_eq (hperm.map _)]
  have hpt : ∀ key ∈ ((owned.map (fun t => (monthKey t.date, t.type))).dedup).filter
        (fun key => key.2 == k),
      trendSum owned key =
        (((owned.filter (fun t => t.type == k)).filter
            (fun t => monthKey t.date == key.1)).map (fun t => t.amount)).sum := by
    intro key hk
    have hk2 : key.2 = k := by
      have h := (List.mem_filter.mp hk).2
      simpa using h
    simp only [trendSum, hk2]
    rw [← List.filter_filter]
  rw [List.map_congr_left hpt]
  have hmaps : (((owned.map (fun t => (monthKey t.date, t.type))).dedup).filter
        (fun key => key.2 == k)).map
          (fun key => (((owned.filter (fun t => t.type == k)).filter
              (fun t => monthKey t.date == key.1)).map (fun t => t.amount)).sum)
      = ((((owned.map (fun t => (monthKey t.date, t.type))).dedup).filter
          (fun key => key.2 == k)).map Prod.fst).map
          (fun m => (((owned.filter (fun t => t.type == k)).filter
              (fun t => monthKey t.date == m)).map (fun t => t.amount)).sum) := by
    rw [List.map_map]
    rfl
  rw [hmaps]
  apply sum_over_groups (fun t : Transaction => monthKey t.date)
    (fun t : Transaction => t.amount)
  · apply List.Nodup.map_on
    · intro x hx y hy h1
      have hx2 : x.2 = k := by simpa using (List.mem_filter.mp hx).2
      have hy2 : y.2 = k := by simpa using (List.mem_filter.mp hy).2
      exact Prod.ext h1 (by rw [hx2, hy2])
    · exact List.Nodup.filter _ (List.nodup_dedup _)
  · intro x hx
    have hxo : x ∈ owned := (List.mem_filter.mp hx).1
    have hxt : x.type = k := by simpa using (List.mem_filter.mp hx).2
    have hpair : (monthKey x.date, x.type) ∈
        (owned.map (fun t => (monthKey t.date, t.type))).dedup :=
      List.mem_dedup.mpr (List.mem_map_of_mem _ hxo)
    have hpairfk : (monthKey x.date, x.type) ∈
        ((owned.map (fun t => (monthKey t.date, t.type))).dedup).filter
          (fun key => key.2 == k) :=
      List.mem_filter.mpr ⟨hpair, by simp [hxt]⟩
    exact List.mem_map_of_mem Prod.fst hpairfk

lemma trend_kind_sum (l : List Transaction) (uid : Nat) (k : String) :
    (((monthlyTrend l uid).filter (fun r => r.2.1 == k)).map (fun r => r.2.2)).sum
      = sumByOwnerKind l uid k := by
  simp only [monthlyTrend]
  rw [filter_map_pred, List.map_map]
  exact (trend_core (l.filter (fun t => t.user_id == uid)) k).trans (by
    simp only [sumByOwnerKind]
    rw [List.filter_filter]
    exact congrArg (fun s : List Transaction => (s.map (fun t => t.amount)).sum)
      (List.filter_congr (fun t _ => Bool.and_comm _ _)))

lemma breakdown_sum (l : List Transaction) (uid : Nat) (k : String) :
    ((categoryBreakdown l uid k).map (fun r => r.2)).sum = sumByOwnerKind l uid k := by
  simp only [categoryBreakdown]
  rw [List.map_map]
  exact Eq.trans
    (List.Perm.sum_eq (List.Perm.map
      (fun c => catSum (l.filter (fun t => t.user_id == uid && t.type == k)) c)
      (List.perm_insertionSort (fun a b : String => a ≤ b)
        (((l.filter (fun t => t.user_id == uid && t.type == k)).map
          (fun t => t.category)).dedup))))
    (sum_over_groups (fun t : Transaction => t.category) (fun t : Transaction => t.amount)
      (l.filter (fun t => t.user_id == uid && t.type == k))
      (((l.filter (fun t => t.user_id == uid && t.type == k)).map
        (fun t => t.category)).dedup)
      (List.nodup_dedup _)
      (fun x hx => List.mem_dedup.mpr (List.mem_map_of_mem _ hx)))

/-- C6: every row of the monthly trend aggregates at least one transaction
of the owner with that month and kind, the rows are ordered ascending by
the year-month string, and for each kind the row sums add up to the
balance total of that kind. -/
theorem c6_monthlyTrend_spec (l : List Transaction) (uid : Nat) :
    (∀ row ∈ monthlyTrend l uid, ∃ t ∈ l,
        t.user_id = uid ∧ monthKey t.date = row.1 ∧ t.type = row.2.1) ∧
    List.Sorted (fun r₁ r₂ : String × String × ℚ => r₁.1 ≤ r₂.1) (monthlyTrend l uid) ∧
    (∀ k, (((monthlyTrend l uid).filter (fun r => r.2.1 == k)).map
        (fun r => r.2.2)).sum = sumByOwnerKind l uid k) ∧
    (((monthlyTrend l uid).filter (fun r => r.2.1 == "income")).map
        (fun r => r.2.2)).sum = (balanceOf l uid).income := by
  refine ⟨?_, ?_, trend_kind_sum l uid, trend_kind_sum l uid "income"⟩
  · intro row hrow
    simp only [monthlyTrend, List.mem_map] at hrow
    obtain ⟨key, hkey, rfl⟩ := hrow
    have hkeys : key ∈ ((l.filter (fun t => t.user_id == uid)).map
        (fun t => (monthKey t.date, t.type))).dedup :=
      (List.perm_insertionSort _ _).mem_iff.mp hkey
    rw [List.mem_dedup] at hkeys
    obtain ⟨t, ht, hteq⟩ := List.mem_map.mp hkeys
    have htl : t ∈ l := (List.mem_filter.mp ht).1
    have htu : t.user_id = uid := by simpa using (List.mem_filter.mp ht).2
    refine ⟨t, htl, htu, ?_, ?_⟩
    · rw [← hteq]
    · rw [← hteq]
  · simp only [monthlyTrend]
    haveI hT : IsTotal (String × String) (fun a b => a.1 ≤ b.1) :=
      ⟨fun a b => le_total a.1 b.1⟩
    haveI hR : IsTrans (String × String) (fun a b => a.1 ≤ b.1) :=
      ⟨fun _ _ _ hab hbc => le_trans hab hbc⟩
    exact List.Pairwise.map _ (fun a b h => h) (List.sorted_insertionSort _ _)

/-- C7: summing the per-category totals of the category breakdown over all
category groups gives the balance total for that kind, and every category
group is backed by at least one matching transaction of the owner. -/
theorem c7_categoryBreakdown_sums (l : List Transaction) (uid : Nat) (k : String) :
    ((categoryBreakdown l uid k).map (fun r => r.2)).sum = sumByOwnerKind l uid k ∧
    ((categoryBreakdown l uid "income").map (fun r => r.2)).sum =
      (balanceOf l uid).income ∧
    ∀ row ∈ categoryBreakdown l uid k, ∃ t ∈ l,
      t.user_id = uid ∧ t.type = k ∧ t.category = row.1 := by
  refine ⟨breakdown_sum l uid k, breakdown_sum l uid "income", ?_⟩
  intro row hrow
  simp only [categoryBreakdown, List.mem_map] at hrow
  obtain ⟨c, hc, rfl⟩ := hrow
  have hcats : c ∈ ((l.filter (fun t => t.user_id == uid && t.type == k)).map
      (fun t => t.category)).dedup :=
    (List.perm_insertionSort _ _).mem_iff.mp hc
  rw [List.mem_dedup] at hcats
  obtain ⟨t, ht, hteq⟩ := List.mem_map.mp hcats
  have hcond := (List.mem_filter.mp ht).2
  simp only [Bool.and_eq_true, beq_iff_eq] at hcond
  exact ⟨t, (List.mem_filter.mp ht).1, hcond.1, hcond.2, hteq⟩

end ExpenseTracker
